import Mathlib

/-!
Verification of the ART LLVM runtime-support bridge
(`src/compiler_llvm/runtime_support_llvm.cc`) against its specification.

The development shallowly embeds the entry points of the bridge.  Pure
managed-runtime services whose implementations live outside this repository
slice (class assignability, thread exception slot manipulation, field and
method resolution) are modelled from the specification; each such model is
marked in its doc comment.  Everything that is in the source file itself
(the entry-point bodies, the catch-handler scan, the symbol-table lookup)
is translated directly.
-/

namespace ArtRuntime

/-- Modelled from the spec: a Runtime Type ("Class" in the source, defined in
`object.h`, which is not part of this repository slice) describes a class or
array type; it has a name (descriptor), an optional superclass, and, for
arrays, a component type.  An `RClass` value is an immutable resolved type. -/
inductive RClass : Type where
  | mk0 (name : String)
  | mkS (name : String) (super : RClass)
  | mkC (name : String) (component : RClass)
  | mkSC (name : String) (super : RClass) (component : RClass)
deriving DecidableEq

def RClass.name : RClass → String
  | .mk0 n => n
  | .mkS n _ => n
  | .mkC n _ => n
  | .mkSC n _ _ => n

def RClass.component : RClass → Option RClass
  | .mk0 _ => none
  | .mkS _ _ => none
  | .mkC _ c => some c
  | .mkSC _ _ c => some c

/-- Modelled from the spec: `Class::IsAssignableFrom` (defined in `object.h`,
not part of this slice).  The spec describes an assignable-from relation that
is reflexive; the model walks the superclass chain of `src`, succeeding when
it reaches a class equal to `dest`. -/
def RClass.isAssignableFrom (dest : RClass) : RClass → Bool
  | .mk0 n => decide (dest = .mk0 n)
  | .mkS n s => decide (dest = .mkS n s) || dest.isAssignableFrom s
  | .mkC n c => decide (dest = .mkC n c)
  | .mkSC n s c => decide (dest = .mkSC n s c) || dest.isAssignableFrom s

/-- Modelled from the spec: a managed Runtime Object carries an embedded
reference to its Runtime Type; throwable objects additionally carry a
diagnostic message. -/
structure RObject where
  klass : RClass
  message : Option String := none
deriving DecidableEq

/-- Modelled from the spec: `PrettyDescriptor` (from `object_utils.h`, not in
this slice) renders a type's name for diagnostic messages. -/
def PrettyDescriptor (c : RClass) : String := c.name

/-- Observable runtime events, used to record the order of the side effects
an entry point performs on its worker. -/
inductive Event : Type where
  | traceUnwind
  | widenStack
  | constructException (descriptor : String)
  | installException
  | restoreStack
deriving DecidableEq

/-- Modelled from the spec: the reserved stack region between the soft stack
limit (the default stack end) and the hard limit (the stack begin), made
available while a stack-overflow error is being constructed. -/
def kStackOverflowReservedBytes : Nat := 4 * 1024

def KB : Nat := 1024

/-- Modelled from the spec: the per-worker state this bridge reads and
mutates — the single pending-exception slot and the stack-bounds pair.
`log` records the order of the observable side effects. -/
structure ThreadState where
  pending : Option RObject
  stackBegin : Nat
  stackSize : Nat
  stackEnd : Nat
  log : List Event

/-- Modelled from the spec: the worker's default soft stack limit (the value
`ResetDefaultStackEnd` restores). -/
def ThreadState.defaultStackEnd (t : ThreadState) : Nat :=
  t.stackBegin + kStackOverflowReservedBytes

/-- Modelled from the spec: `Thread::ThrowNewException` constructs a typed
exception object (its class named by the descriptor, carrying the given
message) and installs it into the pending-exception slot, replacing any
previous value. -/
def ThreadState.throwNewException (t : ThreadState) (descriptor : String)
    (message : Option String) : ThreadState :=
  { t with pending := some { klass := .mk0 descriptor, message := message },
           log := t.log ++ [Event.constructException descriptor] }

/-- Modelled from the spec: `Thread::SetException` installs an existing
object into the pending-exception slot, replacing any previous value. -/
def ThreadState.setException (t : ThreadState) (e : RObject) : ThreadState :=
  { t with pending := some e, log := t.log ++ [Event.installException] }

/-- Modelled from the spec: `Thread::SetStackEndForStackOverflow` widens the
worker's usable stack region by moving the soft stack limit to the hard
limit (the stack begin). -/
def ThreadState.setStackEndForStackOverflow (t : ThreadState) : ThreadState :=
  { t with stackEnd := t.stackBegin, log := t.log ++ [Event.widenStack] }

/-- Modelled from the spec: `Thread::ResetDefaultStackEnd` restores the soft
stack limit to its default value. -/
def ThreadState.resetDefaultStackEnd (t : ThreadState) : ThreadState :=
  { t with stackEnd := t.defaultStackEnd, log := t.log ++ [Event.restoreStack] }

/-- Modelled from the spec: the runtime-global facts
`art_throw_stack_overflow_from_code` consults. -/
structure RuntimeState where
  methodTracingActive : Bool
  defaultStackSize : Nat

/-- Modelled from the spec: `TraceMethodUnwindFromCode` records a method
unwind for the tracer; it does not touch the exception slot or the stack
bounds. -/
def TraceMethodUnwindFromCode (t : ThreadState) : ThreadState :=
  { t with log := t.log ++ [Event.traceUnwind] }

/-!  Type checking entry points (translated from the source). -/

/-- Embedding of `art_is_assignable_from_code`: returns the assignability
query result encoded as an integer.  The worker state is threaded through to
show the query leaves it untouched. -/
def art_is_assignable_from_code (destType srcType : RClass) (t : ThreadState) :
    Int × ThreadState :=
  (if destType.isAssignableFrom srcType then 1 else 0, t)

/-- Embedding of `art_check_cast_from_code`: throws a class-cast exception
when `destType` is not assignable from `srcType`, otherwise has no effect. -/
def art_check_cast_from_code (destType srcType : RClass) (t : ThreadState) :
    ThreadState :=
  if !(destType.isAssignableFrom srcType) then
    t.throwNewException "Ljava/lang/ClassCastException;"
      (some (PrettyDescriptor destType ++ " cannot be cast to " ++
             PrettyDescriptor srcType))
  else t

/-- Embedding of `art_check_put_array_element_from_code`.  A `none` element
is the null reference and is always permitted.  Reading the component type of
a non-array class dereferences null in the source; the embedding returns
`none` for that undefined case. -/
def art_check_put_array_element_from_code (element : Option RObject)
    (array : RObject) (t : ThreadState) : Option ThreadState :=
  match element with
  | none => some t
  | some e =>
    match array.klass.component with
    | none => none
    | some componentType =>
      if !(componentType.isAssignableFrom e.klass) then
        some (t.throwNewException "Ljava/lang/ArrayStoreException;"
          (some (PrettyDescriptor e.klass ++
                 " cannot be stored in an array of type " ++
                 PrettyDescriptor array.klass)))
      else some t

/-!  Exception entry points (translated from the source). -/

/-- Embedding of `art_throw_exception_from_code`: a null argument is promoted
to a null-pointer exception, a non-null argument is installed as-is. -/
def art_throw_exception_from_code (exception : Option RObject)
    (t : ThreadState) : ThreadState :=
  match exception with
  | none => t.throwNewException "Ljava/lang/NullPointerException;"
      (some "throw with null exception")
  | some e => t.setException e

/-- Embedding of `art_throw_stack_overflow_from_code`: optionally records a
trace unwind, widens the stack, constructs and installs the stack-overflow
error, then restores the default stack end. -/
def art_throw_stack_overflow_from_code (rt : RuntimeState) (t : ThreadState) :
    ThreadState :=
  let t1 := if rt.methodTracingActive then TraceMethodUnwindFromCode t else t
  let t2 := t1.setStackEndForStackOverflow
  let t3 := t2.throwNewException "Ljava/lang/StackOverflowError;"
      (some ("stack size " ++ toString (t2.stackSize / KB) ++
             "kb; default stack size: " ++
             toString (rt.defaultStackSize / KB) ++ "kb"))
  t3.resetDefaultStackEnd

/-- Embedding of `art_decode_jobject_in_thread`.  The JNI handle is opaque;
`decode` stands for `Thread::DecodeJObject` (not in this slice), supplied as
a parameter so the theorem can show it is never consulted when an exception
is pending. -/
def art_decode_jobject_in_thread (decode : Nat → Option RObject)
    (t : ThreadState) (obj : Nat) : Option RObject :=
  if t.pending.isSome then none
  else decode obj

/-!  Catch-block search (translated from the source). -/

/-- The dex sentinel type index marking a catch-all handler. -/
def kDexNoIndex16 : Nat := 0xFFFF

/-- Embedding of the loop body of `art_find_catch_block_from_code`.  The
`CatchHandlerIterator` yields, in declaration order, the handler-type index
of each exception-table entry covering the program location; that sequence
is the `List Nat` argument.  `dexCacheResolvedType` is the per-method dex
cache (`MethodHelper::GetDexCacheResolvedType`): `none` means the entry's
type is unresolved.  The result pairs the returned index (`-1` when no
handler is found) with the list of type indices logged as warnings, in the
order the warnings are emitted. -/
def findCatchBlockLoop (exceptionType : RClass)
    (dexCacheResolvedType : Nat → Option RClass) :
    List Nat → Int → Int × List Nat
  | [], _ => (-1, [])
  | typeIdx :: rest, iterIndex =>
    if typeIdx = kDexNoIndex16 then (iterIndex, [])
    else
      match dexCacheResolvedType typeIdx with
      | none =>
        let r := findCatchBlockLoop exceptionType dexCacheResolvedType rest
          (iterIndex + 1)
        (r.1, typeIdx :: r.2)
      | some iterExceptionType =>
        if iterExceptionType.isAssignableFrom exceptionType then (iterIndex, [])
        else findCatchBlockLoop exceptionType dexCacheResolvedType rest
          (iterIndex + 1)

/-- Embedding of `art_find_catch_block_from_code`: the returned handler
index. -/
def art_find_catch_block_from_code (exceptionType : RClass)
    (dexCacheResolvedType : Nat → Option RClass) (handlers : List Nat) : Int :=
  (findCatchBlockLoop exceptionType dexCacheResolvedType handlers 0).1

/-- The warnings emitted during the catch-block scan. -/
def findCatchBlockWarnings (exceptionType : RClass)
    (dexCacheResolvedType : Nat → Option RClass) (handlers : List Nat) :
    List Nat :=
  (findCatchBlockLoop exceptionType dexCacheResolvedType handlers 0).2

/-- Specification-side matching predicate for one exception-table entry: the
entry matches when its handler-type index is the catch-all sentinel, or when
its declared type resolves and is assignable-from the pending exception's
type.  An unresolved entry never matches. -/
def catchEntryMatches (exceptionType : RClass)
    (dexCacheResolvedType : Nat → Option RClass) (typeIdx : Nat) : Bool :=
  typeIdx == kDexNoIndex16 ||
    (match dexCacheResolvedType typeIdx with
     | none => false
     | some c => c.isAssignableFrom exceptionType)

/-!  Field and method resolution (the `Find*Fast` / `Find*FromCode` helpers
live in `runtime_support.h`, outside this slice; they are modelled from the
spec.  The entry-point bodies are translated from the source). -/

/-- Modelled from the spec: `FindFieldFast` attempts resolution using only
the per-caller resolution cache ("information already cached for the calling
method"), with no exception-raising side effects on miss.  `fastChecksOk`
stands for the fast path's extra validity checks (field kind, width, access);
when any fails the fast path misses.  A field's identity is its resolved
storage location, modelled as a `Nat`. -/
def FindFieldFast (cachedField : Nat → Option Nat) (fastChecksOk : Bool)
    (fieldIdx : Nat) : Option Nat :=
  if fastChecksOk then cachedField fieldIdx else none

/-- Modelled from the spec: `FindFieldFromCode` performs full (authoritative)
resolution, and on failure installs a pending exception and reports no
field.  The exception's concrete class varies with the failure cause; the
model uses one representative descriptor. -/
def FindFieldFromCode (resolveField : Nat → Option Nat) (fieldIdx : Nat)
    (t : ThreadState) : Option Nat × ThreadState :=
  match resolveField fieldIdx with
  | some f => (some f, t)
  | none => (none, t.throwNewException "Ljava/lang/NoSuchFieldError;" none)

/-- Modelled from the spec: `FindMethodFast` attempts method resolution using
only the per-call-site cached information; misses have no side effects.  A
method's identity is modelled as a `Nat`. -/
def FindMethodFast (cachedMethod : Nat → Option Nat) (fastChecksOk : Bool)
    (methodIdx : Nat) : Option Nat :=
  if fastChecksOk then cachedMethod methodIdx else none

/-- Modelled from the spec: `FindMethodFromCode` performs full method
resolution with access checks; on failure it installs a pending exception
and reports no method. -/
def FindMethodFromCode (resolveMethod : Nat → Option Nat) (methodIdx : Nat)
    (t : ThreadState) : Option Nat × ThreadState :=
  match resolveMethod methodIdx with
  | some m => (some m, t)
  | none => (none, t.throwNewException "Ljava/lang/NoSuchMethodError;" none)

/-- Specification-side cache invariant: the per-caller resolution cache only
ever holds results of successful authoritative resolution ("once a
field/method index resolves successfully for a caller, the cached result is
stable and reused by the fast path"). -/
def CacheConsistent (cached resolve : Nat → Option Nat) : Prop :=
  ∀ i r, cached i = some r → resolve i = some r

/-- Embedding of `FindMethodHelper`: fast lookup first, full resolution on
miss; a failed full resolution leaves the pending exception installed by
`FindMethodFromCode` and reports failure. -/
def FindMethodHelper (cachedMethod : Nat → Option Nat) (fastChecksOk : Bool)
    (resolveMethod : Nat → Option Nat) (methodIdx : Nat) (t : ThreadState) :
    Option Nat × ThreadState :=
  match FindMethodFast cachedMethod fastChecksOk methodIdx with
  | some m => (some m, t)
  | none => FindMethodFromCode resolveMethod methodIdx t

/-- Static 32-bit field storage (`Field::Set32` / `Field::Get32` with a null
receiver address a fixed storage location, keyed here by the resolved
field's identity). -/
structure Heap32 where
  vals : Nat → Int

def Heap32.set32 (h : Heap32) (storageLoc : Nat) (v : Int) : Heap32 :=
  ⟨fun l => if l = storageLoc then v else h.vals l⟩

/-- Embedding of `art_set32_static_from_code`: fast path, then slow path;
returns 0 after a successful typed write, -1 when both paths fail. -/
def art_set32_static_from_code (cachedField : Nat → Option Nat)
    (fastChecksOk : Bool) (resolveField : Nat → Option Nat) (fieldIdx : Nat)
    (newValue : Int) (t : ThreadState) (h : Heap32) :
    Int × ThreadState × Heap32 :=
  match FindFieldFast cachedField fastChecksOk fieldIdx with
  | some f => (0, t, h.set32 f newValue)
  | none =>
    match FindFieldFromCode resolveField fieldIdx t with
    | (some f, t2) => (0, t2, h.set32 f newValue)
    | (none, t2) => (-1, t2, h)

/-- Embedding of `art_get32_static_from_code`: fast path, then slow path;
returns the read value on success and 0 when both paths fail. -/
def art_get32_static_from_code (cachedField : Nat → Option Nat)
    (fastChecksOk : Bool) (resolveField : Nat → Option Nat) (fieldIdx : Nat)
    (t : ThreadState) (h : Heap32) : Int × ThreadState :=
  match FindFieldFast cachedField fastChecksOk fieldIdx with
  | some f => (h.vals f, t)
  | none =>
    match FindFieldFromCode resolveField fieldIdx t with
    | (some f, t2) => (h.vals f, t2)
    | (none, t2) => (0, t2)

/-!  Runtime symbol table lookup (translated from the source).  The tables
themselves are generated from list headers outside this slice, so they are
parameters here; their contents are name/address pairs. -/

abbrev Addr := Nat

/-- Result of `art_find_runtime_support_func`: an address, or a fatal abort
(`LOG(FATAL)`). -/
inductive LookupResult : Type where
  | addr (a : Addr)
  | fatal (msg : String)
deriving DecidableEq

/-- Modelled from the source's `CStringComparator`: the `strcmp`-based
strict ordering on names, as byte-wise lexicographic comparison of the
character lists. -/
def charListLt : List Char → List Char → Bool
  | [], [] => false
  | [], _ :: _ => true
  | _ :: _, [] => false
  | c :: cs, d :: ds =>
    if c < d then true else if d < c then false else charListLt cs ds

/-- The `strcmp(lhs, rhs) < 0` comparison on names. -/
def cstringLt (a b : String) : Bool := charListLt a.data b.data

/-- Modelled by its contract: `std::lower_bound` over the (sorted) name
array returns the first position whose element is not less than the key. -/
def lower_bound (names : List String) (x : String) : Nat :=
  (names.takeWhile (fun s => cstringLt s x)).length

/-- Embedding of `art_find_compiler_runtime_func`: binary search of the
sorted low-level helper table (`lower_bound`, then a bounds check and an
exact-name check); the null pointer is modelled as address 0. -/
def art_find_compiler_runtime_func (table : List (String × Addr))
    (name : String) : Addr :=
  let pos := lower_bound (table.map Prod.fst) name
  match table[pos]? with
  | some entry => if entry.1 = name then entry.2 else 0
  | none => 0

/-- Embedding of `art_find_runtime_support_func`: low-level helper table
first; on miss, a linear scan of the entry-point table comparing both length
and content; on a second miss the lookup is fatal. -/
def art_find_runtime_support_func (compilerTable entryTable : List (String × Addr))
    (name : String) : LookupResult :=
  let result := art_find_compiler_runtime_func compilerTable name
  if result ≠ 0 then .addr result
  else
    match entryTable.find? (fun e => name.length == e.1.length && name == e.1) with
    | some e => .addr e.2
    | none => .fatal ("Error: Can't find symbol " ++ name)

/-!  Concrete sample states, used by witnesses. -/

/-- A concrete worker state with no pending exception. -/
def sampleThread : ThreadState :=
  { pending := none, stackBegin := 0, stackSize := 64 * KB,
    stackEnd := kStackOverflowReservedBytes, log := [] }

/-- A concrete worker state with a pending exception. -/
def sampleThreadPending : ThreadState :=
  { sampleThread with pending := some { klass := .mk0 "Ljava/lang/Error;" } }

/-- A concrete static-field heap. -/
def sampleHeap : Heap32 := ⟨fun _ => 0⟩

/-!  Helper lemmas. -/

theorem RClass.isAssignableFrom_self (c : RClass) :
    c.isAssignableFrom c = true := by
  cases c <;> simp [RClass.isAssignableFrom]

/-!  Claim theorems. -/

/-- Claim C5: the assignability query returns 1 when `destType` is
assignable-from `srcType` and 0 otherwise, returns 1 whenever the two types
are equal (reflexivity), and leaves the worker state untouched (it installs
no exception). -/
theorem art_is_assignable_from_code_spec (destType srcType : RClass)
    (t : ThreadState) :
    ((art_is_assignable_from_code destType srcType t).1 =
        if destType.isAssignableFrom srcType then 1 else 0)
    ∧ (destType = srcType →
        (art_is_assignable_from_code destType srcType t).1 = 1)
    ∧ (art_is_assignable_from_code destType srcType t).2 = t := by
  refine ⟨rfl, ?_, rfl⟩
  intro h
  subst h
  simp [art_is_assignable_from_code, RClass.isAssignableFrom_self]

/-- Witness for C5 at concrete inputs. -/
theorem art_is_assignable_from_code_spec_witness :
    (art_is_assignable_from_code (.mk0 "A") (.mk0 "A") sampleThread).1 = 1 :=
  (art_is_assignable_from_code_spec (.mk0 "A") (.mk0 "A") sampleThread).2.1 rfl

/-- Claim C6: the cast check has no effect when `destType` is assignable-from
`srcType`, and otherwise installs a pending class-cast exception whose
message contains both type names. -/
theorem art_check_cast_from_code_spec (destType srcType : RClass)
    (t : ThreadState) :
    (destType.isAssignableFrom srcType = true →
      art_check_cast_from_code destType srcType t = t)
    ∧ (destType.isAssignableFrom srcType = false →
      (art_check_cast_from_code destType srcType t).pending =
        some { klass := .mk0 "Ljava/lang/ClassCastException;",
               message := some (destType.name ++ " cannot be cast to " ++
                                srcType.name) }) := by
  constructor
  · intro h
    simp [art_check_cast_from_code, h]
  · intro h
    simp [art_check_cast_from_code, h, ThreadState.throwNewException,
          PrettyDescriptor]

/-- Witness for C6: both branches at concrete inputs. -/
theorem art_check_cast_from_code_spec_witness :
    art_check_cast_from_code (.mk0 "A") (.mkS "B" (.mk0 "A")) sampleThread =
      sampleThread
    ∧ (art_check_cast_from_code (.mk0 "A") (.mk0 "B") sampleThread).pending =
        some { klass := .mk0 "Ljava/lang/ClassCastException;",
               message := some ((RClass.mk0 "A").name ++ " cannot be cast to " ++
                                (RClass.mk0 "B").name) } :=
  ⟨(art_check_cast_from_code_spec (.mk0 "A") (.mkS "B" (.mk0 "A"))
      sampleThread).1 (by decide),
   (art_check_cast_from_code_spec (.mk0 "A") (.mk0 "B") sampleThread).2
      (by decide)⟩

/-- Claim C7: the array-store check never raises for a null element; for a
non-null element (of an array whose class has a component type) it has no
effect when the component type is assignable-from the element's type, and
otherwise installs a pending array-store exception. -/
theorem art_check_put_array_element_from_code_spec (element : Option RObject)
    (array : RObject) (t : ThreadState) :
    (element = none →
      art_check_put_array_element_from_code element array t = some t)
    ∧ (∀ e componentType, element = some e →
        array.klass.component = some componentType →
        (componentType.isAssignableFrom e.klass = true →
          art_check_put_array_element_from_code element array t = some t)
        ∧ (componentType.isAssignableFrom e.klass = false →
          ∃ t2, art_check_put_array_element_from_code element array t = some t2
            ∧ t2.pending =
                some { klass := .mk0 "Ljava/lang/ArrayStoreException;",
                       message := some (e.klass.name ++
                         " cannot be stored in an array of type " ++
                         array.klass.name) })) := by
  constructor
  · intro h
    subst h
    rfl
  · intro e componentType he hc
    subst he
    constructor
    · intro h
      simp [art_check_put_array_element_from_code, hc, h]
    · intro h
      refine ⟨t.throwNewException "Ljava/lang/ArrayStoreException;"
        (some (PrettyDescriptor e.klass ++
               " cannot be stored in an array of type " ++
               PrettyDescriptor array.klass)), ?_, ?_⟩
      · simp [art_check_put_array_element_from_code, hc, h]
      · simp [ThreadState.throwNewException, PrettyDescriptor]

/-- Witness for C7: null element, assignable element, and non-assignable
element, at concrete inputs. -/
theorem art_check_put_array_element_from_code_spec_witness :
    art_check_put_array_element_from_code none
      { klass := .mkC "[LA;" (.mk0 "A") } sampleThread = some sampleThread
    ∧ art_check_put_array_element_from_code
        (some { klass := .mkS "B" (.mk0 "A") })
        { klass := .mkC "[LA;" (.mk0 "A") } sampleThread = some sampleThread
    ∧ ∃ t2, art_check_put_array_element_from_code
        (some { klass := .mk0 "C" })
        { klass := .mkC "[LA;" (.mk0 "A") } sampleThread = some t2
        ∧ t2.pending = some (RObject.mk
            (.mk0 "Ljava/lang/ArrayStoreException;")
            (some ((RClass.mk0 "C").name ++
              " cannot be stored in an array of type " ++
              (RClass.mkC "[LA;" (.mk0 "A")).name))) :=
  ⟨(art_check_put_array_element_from_code_spec none
      { klass := .mkC "[LA;" (.mk0 "A") } sampleThread).1 rfl,
   ((art_check_put_array_element_from_code_spec
      (some { klass := .mkS "B" (.mk0 "A") })
      { klass := .mkC "[LA;" (.mk0 "A") } sampleThread).2
      { klass := .mkS "B" (.mk0 "A") } (.mk0 "A") rfl rfl).1 (by decide),
   ((art_check_put_array_element_from_code_spec
      (some { klass := .mk0 "C" })
      { klass := .mkC "[LA;" (.mk0 "A") } sampleThread).2
      { klass := .mk0 "C" } (.mk0 "A") rfl rfl).2 (by decide)⟩

/-- Claim C8: the stack-overflow throw widens the stack strictly before
constructing the exception and restores the default stack end afterwards:
the final stack end equals the (unchanged) default value, a stack-overflow
error is pending, and the event log shows widening before construction
before restoration. -/
theorem art_throw_stack_overflow_from_code_spec (rt : RuntimeState)
    (t : ThreadState) :
    (art_throw_stack_overflow_from_code rt t).stackEnd =
      (art_throw_stack_overflow_from_code rt t).defaultStackEnd
    ∧ (art_throw_stack_overflow_from_code rt t).defaultStackEnd =
        t.defaultStackEnd
    ∧ (∃ m, (art_throw_stack_overflow_from_code rt t).pending =
        some { klass := .mk0 "Ljava/lang/StackOverflowError;",
               message := some m })
    ∧ (art_throw_stack_overflow_from_code rt t).log =
        t.log ++ (if rt.methodTracingActive then [Event.traceUnwind] else [])
          ++ [Event.widenStack,
              Event.constructException "Ljava/lang/StackOverflowError;",
              Event.restoreStack] := by
  cases hb : rt.methodTracingActive <;>
    simp [art_throw_stack_overflow_from_code, hb, TraceMethodUnwindFromCode,
          ThreadState.setStackEndForStackOverflow,
          ThreadState.throwNewException, ThreadState.resetDefaultStackEnd,
          ThreadState.defaultStackEnd]

/-- The returned index of the catch-handler scan is the position of the
first matching entry, offset by the running counter `k`, computed here
against `List.findIdx?`. -/
theorem findCatchBlockLoop_fst (exceptionType : RClass)
    (cache : Nat → Option RClass) (handlers : List Nat) :
    ∀ k : Int, (findCatchBlockLoop exceptionType cache handlers k).1 =
      match handlers.findIdx? (catchEntryMatches exceptionType cache) with
      | some i => k + (i : Int)
      | none => -1 := by
  induction handlers with
  | nil => intro k; simp [findCatchBlockLoop]
  | cons typeIdx rest ih =>
    intro k
    by_cases hs : typeIdx = kDexNoIndex16
    · subst hs
      have hp : catchEntryMatches exceptionType cache kDexNoIndex16 = true := by
        simp [catchEntryMatches]
      simp [findCatchBlockLoop, List.findIdx?_cons, hp]
    · cases hc : cache typeIdx with
      | none =>
        have hp : catchEntryMatches exceptionType cache typeIdx = false := by
          simp [catchEntryMatches, hs, hc]
        rw [List.findIdx?_cons]
        cases hf : rest.findIdx? (catchEntryMatches exceptionType cache) with
        | none =>
          simp [findCatchBlockLoop, hs, hc, hp, List.findIdx?_succ, hf, ih]
        | some i =>
          simp only [findCatchBlockLoop, hs, hc, hp, List.findIdx?_succ, hf,
            if_false, ite_false, Bool.false_eq_true, Option.map_some]
          rw [ih (k + 1)]
          simp [hf]
          ring
      | some c =>
        by_cases ha : c.isAssignableFrom exceptionType
        · have hp : catchEntryMatches exceptionType cache typeIdx = true := by
            simp [catchEntryMatches, hc, ha]
          simp [findCatchBlockLoop, hs, hc, ha, List.findIdx?_cons, hp]
        · have hp : catchEntryMatches exceptionType cache typeIdx = false := by
            simp [catchEntryMatches, hs, hc, ha]
          rw [List.findIdx?_cons]
          cases hf : rest.findIdx? (catchEntryMatches exceptionType cache) with
          | none =>
            simp [findCatchBlockLoop, hs, hc, ha, hp, List.findIdx?_succ, hf,
              ih]
          | some i =>
            simp only [findCatchBlockLoop, hs, hc, ha, hp, List.findIdx?_succ,
              hf, if_false, ite_false, Bool.false_eq_true, Option.map_some]
            rw [ih (k + 1)]
            simp [hf]
            ring

/-- The warnings of the catch-handler scan are exactly the unresolved type
indices among the entries scanned before the first match. -/
theorem findCatchBlockLoop_snd (exceptionType : RClass)
    (cache : Nat → Option RClass) (handlers : List Nat) :
    ∀ k : Int, (findCatchBlockLoop exceptionType cache handlers k).2 =
      (handlers.take
          ((handlers.findIdx?
              (catchEntryMatches exceptionType cache)).getD handlers.length)).filter
        (fun typeIdx => (cache typeIdx).isNone) := by
  induction handlers with
  | nil => intro k; simp [findCatchBlockLoop]
  | cons typeIdx rest ih =>
    intro k
    by_cases hs : typeIdx = kDexNoIndex16
    · subst hs
      have hp : catchEntryMatches exceptionType cache kDexNoIndex16 = true := by
        simp [catchEntryMatches]
      simp [findCatchBlockLoop, List.findIdx?_cons, hp]
    · cases hc : cache typeIdx with
      | none =>
        have hp : catchEntryMatches exceptionType cache typeIdx = false := by
          simp [catchEntryMatches, hs, hc]
        rw [List.findIdx?_cons]
        cases hf : rest.findIdx? (catchEntryMatches exceptionType cache) with
        | none =>
          simp [findCatchBlockLoop, hs, hc, hp, List.findIdx?_succ, hf, ih,
            List.take_succ_cons, List.filter_cons]
        | some i =>
          simp [findCatchBlockLoop, hs, hc, hp, List.findIdx?_succ, hf, ih,
            List.take_succ_cons, List.filter_cons]
      | some c =>
        by_cases ha : c.isAssignableFrom exceptionType
        · have hp : catchEntryMatches exceptionType cache typeIdx = true := by
            simp [catchEntryMatches, hc, ha]
          simp [findCatchBlockLoop, hs, hc, ha, List.findIdx?_cons, hp]
        · have hp : catchEntryMatches exceptionType cache typeIdx = false := by
            simp [catchEntryMatches, hs, hc, ha]
          rw [List.findIdx?_cons]
          cases hf : rest.findIdx? (catchEntryMatches exceptionType cache) with
          | none =>
            simp [findCatchBlockLoop, hs, hc, ha, hp, List.findIdx?_succ, hf,
              ih, List.take_succ_cons, List.filter_cons, hc]
          | some i =>
            simp [findCatchBlockLoop, hs, hc, ha, hp, List.findIdx?_succ, hf,
              ih, List.take_succ_cons, List.filter_cons, hc]

/-- Claim C1: the catch-block search scans the entries covering the program
location in declaration order and returns the zero-based index of the first
entry that is a catch-all or whose resolved declared type is assignable-from
the pending exception's type; it returns -1 exactly when no entry matches;
and it warns about (while scanning past) precisely the unresolved entries
encountered before the first match. -/
theorem art_find_catch_block_from_code_spec (exceptionType : RClass)
    (dexCacheResolvedType : Nat → Option RClass) (handlers : List Nat) :
    (art_find_catch_block_from_code exceptionType dexCacheResolvedType handlers =
      match handlers.findIdx?
          (catchEntryMatches exceptionType dexCacheResolvedType) with
      | some i => (i : Int)
      | none => -1)
    ∧ (art_find_catch_block_from_code exceptionType dexCacheResolvedType
          handlers = -1 ↔
        ∀ typeIdx ∈ handlers,
          catchEntryMatches exceptionType dexCacheResolvedType typeIdx = false)
    ∧ findCatchBlockWarnings exceptionType dexCacheResolvedType handlers =
        (handlers.take
            ((handlers.findIdx?
                (catchEntryMatches exceptionType
                  dexCacheResolvedType)).getD handlers.length)).filter
          (fun typeIdx => (dexCacheResolvedType typeIdx).isNone) := by
  have h1 := findCatchBlockLoop_fst exceptionType dexCacheResolvedType
    handlers 0
  have heq : art_find_catch_block_from_code exceptionType dexCacheResolvedType
      handlers =
      match handlers.findIdx?
          (catchEntryMatches exceptionType dexCacheResolvedType) with
      | some i => (i : Int)
      | none => -1 := by
    rw [art_find_catch_block_from_code, h1]
    cases hf : handlers.findIdx?
        (catchEntryMatches exceptionType dexCacheResolvedType) <;> simp [hf]
  refine ⟨heq, ?_, findCatchBlockLoop_snd exceptionType dexCacheResolvedType
    handlers 0⟩
  rw [heq]
  cases hf : handlers.findIdx?
      (catchEntryMatches exceptionType dexCacheResolvedType) with
  | none => simpa using List.findIdx?_eq_none_iff.mp hf
  | some i =>
    constructor
    · intro h
      exfalso
      have hi : (i : Int) = -1 := h
      omega
    · intro h
      exact absurd hf (by simp [List.findIdx?_eq_none_iff.mpr h])

/-- Claim C2: under the per-caller cache invariant (the cache only holds
results of successful authoritative resolution), the fast path and the slow
path yield the same field storage location, respectively method identity,
whenever each succeeds; and `FindMethodHelper`'s successful result always
equals the authoritative resolution, independent of which path served it. -/
theorem fast_slow_resolution_agree
    (cachedField resolveField cachedMethod resolveMethod : Nat → Option Nat)
    (fieldChecksOk methodChecksOk : Bool) (idx : Nat) (t : ThreadState)
    (hf : CacheConsistent cachedField resolveField)
    (hm : CacheConsistent cachedMethod resolveMethod) :
    (∀ f1 f2, FindFieldFast cachedField fieldChecksOk idx = some f1 →
      (FindFieldFromCode resolveField idx t).1 = some f2 → f1 = f2)
    ∧ (∀ m1 m2, FindMethodFast cachedMethod methodChecksOk idx = some m1 →
      (FindMethodFromCode resolveMethod idx t).1 = some m2 → m1 = m2)
    ∧ (∀ m, (FindMethodHelper cachedMethod methodChecksOk resolveMethod
        idx t).1 = some m → resolveMethod idx = some m) := by
  refine ⟨?_, ?_, ?_⟩
  · intro f1 f2 h1 h2
    rw [FindFieldFast] at h1
    by_cases hok : fieldChecksOk
    · rw [if_pos hok] at h1
      have hr := hf idx f1 h1
      rw [FindFieldFromCode, hr] at h2
      exact Option.some_inj.mp h2
    · rw [if_neg hok] at h1
      exact absurd h1 (by simp)
  · intro m1 m2 h1 h2
    rw [FindMethodFast] at h1
    by_cases hok : methodChecksOk
    · rw [if_pos hok] at h1
      have hr := hm idx m1 h1
      rw [FindMethodFromCode, hr] at h2
      exact Option.some_inj.mp h2
    · rw [if_neg hok] at h1
      exact absurd h1 (by simp)
  · intro m hhelp
    rw [FindMethodHelper] at hhelp
    cases hfast : FindMethodFast cachedMethod methodChecksOk idx with
    | some m0 =>
      rw [hfast] at hhelp
      have hm0 : m0 = m := Option.some_inj.mp hhelp
      subst hm0
      rw [FindMethodFast] at hfast
      by_cases hok : methodChecksOk
      · rw [if_pos hok] at hfast
        exact hm idx m0 hfast
      · rw [if_neg hok] at hfast
        exact absurd hfast (by simp)
    | none =>
      rw [hfast, FindMethodFromCode] at hhelp
      cases hr : resolveMethod idx with
      | some m0 => rw [hr] at hhelp; exact hhelp
      | none => rw [hr] at hhelp; exact absurd hhelp (by simp)

/-- Witness for C2 at concrete caches and resolvers. -/
theorem fast_slow_resolution_agree_witness :
    (fun _ : Nat => some 7) 0 = some (7 : Nat) :=
  (fast_slow_resolution_agree (fun _ => some 5) (fun _ => some 5)
    (fun _ => some 7) (fun _ => some 7) true true 0 sampleThread
    (fun _ _ h => h) (fun _ _ h => h)).2.2 7 rfl

/-- Claim C4: a static 32-bit field write returns 0 exactly when the fast or
the slow path resolves the field, performing the typed write; when both fail
it returns -1 with a pending exception and an unchanged heap.  The matching
read returns the stored value on success and the 0 sentinel with a pending
exception when both paths fail. -/
theorem field_access_status_encoding
    (cachedField resolveField : Nat → Option Nat) (fastChecksOk : Bool)
    (fieldIdx : Nat) (newValue : Int) (t : ThreadState) (h : Heap32) :
    (∀ f, FindFieldFast cachedField fastChecksOk fieldIdx = some f →
      art_set32_static_from_code cachedField fastChecksOk resolveField
        fieldIdx newValue t h = (0, t, h.set32 f newValue))
    ∧ (∀ f, FindFieldFast cachedField fastChecksOk fieldIdx = none →
        resolveField fieldIdx = some f →
        art_set32_static_from_code cachedField fastChecksOk resolveField
          fieldIdx newValue t h = (0, t, h.set32 f newValue))
    ∧ (FindFieldFast cachedField fastChecksOk fieldIdx = none →
        resolveField fieldIdx = none →
        (art_set32_static_from_code cachedField fastChecksOk resolveField
            fieldIdx newValue t h).1 = -1
        ∧ ((art_set32_static_from_code cachedField fastChecksOk resolveField
            fieldIdx newValue t h).2.1).pending.isSome
        ∧ (art_set32_static_from_code cachedField fastChecksOk resolveField
            fieldIdx newValue t h).2.2 = h)
    ∧ ((art_set32_static_from_code cachedField fastChecksOk resolveField
          fieldIdx newValue t h).1 = 0 ↔
        (FindFieldFast cachedField fastChecksOk fieldIdx).isSome
        ∨ (resolveField fieldIdx).isSome)
    ∧ (∀ f, FindFieldFast cachedField fastChecksOk fieldIdx = some f →
        art_get32_static_from_code cachedField fastChecksOk resolveField
          fieldIdx t h = (h.vals f, t))
    ∧ (∀ f, FindFieldFast cachedField fastChecksOk fieldIdx = none →
        resolveField fieldIdx = some f →
        art_get32_static_from_code cachedField fastChecksOk resolveField
          fieldIdx t h = (h.vals f, t))
    ∧ (FindFieldFast cachedField fastChecksOk fieldIdx = none →
        resolveField fieldIdx = none →
        (art_get32_static_from_code cachedField fastChecksOk resolveField
            fieldIdx t h).1 = 0
        ∧ ((art_get32_static_from_code cachedField fastChecksOk resolveField
            fieldIdx t h).2).pending.isSome) := by
  refine ⟨?_, ?_, ?_, ?_, ?_, ?_, ?_⟩
  · intro f hfast
    simp [art_set32_static_from_code, hfast]
  · intro f hfast hslow
    simp [art_set32_static_from_code, hfast, FindFieldFromCode, hslow]
  · intro hfast hslow
    simp [art_set32_static_from_code, hfast, FindFieldFromCode, hslow,
          ThreadState.throwNewException]
  · cases hfast : FindFieldFast cachedField fastChecksOk fieldIdx with
    | some f => simp [art_set32_static_from_code, hfast]
    | none =>
      cases hslow : resolveField fieldIdx with
      | some f =>
        simp [art_set32_static_from_code, hfast, FindFieldFromCode, hslow]
      | none =>
        simp [art_set32_static_from_code, hfast, FindFieldFromCode, hslow]
  · intro f hfast
    simp [art_get32_static_from_code, hfast]
  · intro f hfast hslow
    simp [art_get32_static_from_code, hfast, FindFieldFromCode, hslow]
  · intro hfast hslow
    simp [art_get32_static_from_code, hfast, FindFieldFromCode, hslow,
          ThreadState.throwNewException]

/-- Witness for C4: a slow-path success and a double failure at concrete
inputs. -/
theorem field_access_status_encoding_witness :
    art_set32_static_from_code (fun _ => none) true (fun _ => some 9) 0 5
      sampleThread sampleHeap = (0, sampleThread, sampleHeap.set32 9 5)
    ∧ (art_set32_static_from_code (fun _ => none) true (fun _ => none) 0 5
        sampleThread sampleHeap).1 = -1
    ∧ (art_get32_static_from_code (fun _ => none) true (fun _ => none) 0
        sampleThread sampleHeap).1 = 0 :=
  ⟨(field_access_status_encoding (fun _ => none) (fun _ => some 9) true 0 5
      sampleThread sampleHeap).2.1 9 rfl rfl,
   ((field_access_status_encoding (fun _ => none) (fun _ => none) true 0 5
      sampleThread sampleHeap).2.2.1 rfl rfl).1,
   ((field_access_status_encoding (fun _ => none) (fun _ => none) true 0 5
      sampleThread sampleHeap).2.2.2.2.2.2 rfl rfl).1⟩

theorem charListLt_irrefl (l : List Char) : charListLt l l = false := by
  induction l with
  | nil => rfl
  | cons c cs ih => simp [charListLt, ih]

theorem cstringLt_irrefl (s : String) : cstringLt s s = false :=
  charListLt_irrefl s.data

/-- On a strictly sorted name list, `lower_bound` returns exactly the
position of the key when the key is present. -/
theorem lower_bound_of_get (x : String) :
    ∀ (ns : List String),
      List.Pairwise (fun a b => cstringLt a b = true) ns →
      ∀ (k : Nat) (hk : k < ns.length), ns.get ⟨k, hk⟩ = x →
      lower_bound ns x = k := by
  intro ns
  induction ns with
  | nil =>
    intro _ k hk
    exact absurd hk (by simp)
  | cons n rest ih =>
    intro hp k hk hget
    cases k with
    | zero =>
      have hn : n = x := hget
      subst hn
      simp [lower_bound, List.takeWhile_cons, cstringLt_irrefl]
    | succ j =>
      have hj : j < rest.length := by
        simpa using hk
      have hx : x ∈ rest := hget ▸ List.get_mem rest j hj
      have hlt : cstringLt n x = true := (List.pairwise_cons.mp hp).1 x hx
      have ihr := ih (List.pairwise_cons.mp hp).2 j hj hget
      simp only [lower_bound, List.takeWhile_cons, hlt, if_true,
        List.length_cons] at ihr ⊢
      omega

/-- When the key is present in the strictly sorted helper table, the binary
search returns the registered address. -/
theorem art_find_compiler_runtime_func_mem
    (table : List (String × Addr)) (name : String) (a : Addr)
    (hsorted : List.Pairwise (fun e1 e2 => cstringLt e1.1 e2.1 = true) table)
    (hmem : (name, a) ∈ table) :
    art_find_compiler_runtime_func table name = a := by
  obtain ⟨k, hget⟩ := List.mem_iff_get.mp hmem
  have hnames : List.Pairwise (fun x y => cstringLt x y = true)
      (table.map Prod.fst) :=
    List.Pairwise.map Prod.fst (fun _ _ h => h) hsorted
  have hklt : (k : Nat) < (table.map Prod.fst).length := by
    simp only [List.length_map]
    exact k.2
  have hgetname : (table.map Prod.fst).get ⟨k, hklt⟩ = name := by
    have hk : table[(k : Nat)] = (name, a) := by
      simpa [List.get_eq_getElem] using hget
    simp only [List.get_eq_getElem, List.getElem_map, hk]
  have hpos : lower_bound (table.map Prod.fst) name = k :=
    lower_bound_of_get name (table.map Prod.fst) hnames k hklt hgetname
  have hidx : table[(k : Nat)]? = some (name, a) := by
    rw [List.getElem?_eq_getElem k.2]
    simpa using congrArg some (hget ▸ rfl)
  simp [art_find_compiler_runtime_func, hpos, hidx]

/-- When the key is absent from the helper table, the binary search reports
the null address, whatever the table's order. -/
theorem art_find_compiler_runtime_func_absent
    (table : List (String × Addr)) (name : String)
    (habs : name ∉ table.map Prod.fst) :
    art_find_compiler_runtime_func table name = 0 := by
  rw [art_find_compiler_runtime_func]
  cases hidx : table[lower_bound (table.map Prod.fst) name]? with
  | none => rfl
  | some entry =>
    have hment : entry ∈ table := by
      have := List.get?_mem (by simpa [List.get?_eq_getElem?] using hidx)
      exact this
    have hne : entry.1 ≠ name := by
      intro h
      exact habs (h ▸ List.mem_map_of_mem Prod.fst hment)
    simp [hidx, hne]

/-- Claim C3: runtime-symbol lookup returns the registered address for any
name in the (strictly sorted, null-free) low-level helper table; for a name
absent there but present in the entry-point table it returns the address of
an entry agreeing in both length and content; and for a name absent from
both tables it is fatal. -/
theorem art_find_runtime_support_func_spec
    (compilerTable entryTable : List (String × Addr)) (name : String)
    (hsorted : List.Pairwise (fun e1 e2 => cstringLt e1.1 e2.1 = true)
      compilerTable)
    (hnz : ∀ e ∈ compilerTable, e.2 ≠ 0) :
    (∀ a, (name, a) ∈ compilerTable →
      art_find_runtime_support_func compilerTable entryTable name = .addr a)
    ∧ (name ∉ compilerTable.map Prod.fst →
        name ∈ entryTable.map Prod.fst →
        ∃ e ∈ entryTable, e.1 = name ∧ e.1.length = name.length ∧
          art_find_runtime_support_func compilerTable entryTable name =
            .addr e.2)
    ∧ (name ∉ compilerTable.map Prod.fst →
        name ∉ entryTable.map Prod.fst →
        art_find_runtime_support_func compilerTable entryTable name =
          .fatal ("Error: Can't find symbol " ++ name)) := by
  refine ⟨?_, ?_, ?_⟩
  · intro a hmem
    have hres := art_find_compiler_runtime_func_mem compilerTable name a
      hsorted hmem
    have hane : a ≠ 0 := hnz (name, a) hmem
    simp [art_find_runtime_support_func, hres, hane]
  · intro habs hin
    have h0 := art_find_compiler_runtime_func_absent compilerTable name habs
    cases hfind : entryTable.find?
        (fun e => name.length == e.1.length && name == e.1) with
    | none =>
      exfalso
      obtain ⟨e, hmem, hname⟩ := List.mem_map.mp hin
      have := (List.find?_eq_none.mp hfind) e hmem
      simp [hname] at this
    | some e =>
      have hmem := List.mem_of_find?_eq_some hfind
      have hpred := List.find?_some hfind
      have hname : e.1 = name := by
        have hb := (Bool.and_eq_true _ _).mp hpred
        exact (eq_of_beq hb.2).symm
      refine ⟨e, hmem, hname, by rw [hname], ?_⟩
      simp [art_find_runtime_support_func, h0, hfind]
  · intro habs habs2
    have h0 := art_find_compiler_runtime_func_absent compilerTable name habs
    have hfind : entryTable.find?
        (fun e => name.length == e.1.length && name == e.1) = none := by
      rw [List.find?_eq_none]
      intro e hmem
      intro hpred
      have hb := (Bool.and_eq_true _ _).mp hpred
      have hname : e.1 = name := (eq_of_beq hb.2).symm
      exact habs2 (hname ▸ List.mem_map_of_mem Prod.fst hmem)
    simp [art_find_runtime_support_func, h0, hfind]

/-- Witness for C3: a present helper name, a present entry-point name, and a
missing name, over concrete tables. -/
theorem art_find_runtime_support_func_spec_witness :
    art_find_runtime_support_func [("aa", 1), ("bb", 2)] [("art_x", 3)]
      "bb" = .addr 2
    ∧ (∃ e ∈ [("art_x", (3 : Addr))], e.1 = "art_x" ∧
        e.1.length = "art_x".length ∧
        art_find_runtime_support_func [("aa", 1), ("bb", 2)] [("art_x", 3)]
          "art_x" = .addr e.2)
    ∧ art_find_runtime_support_func [("aa", 1), ("bb", 2)] [("art_x", 3)]
        "zz" = .fatal ("Error: Can't find symbol " ++ "zz") :=
  ⟨(art_find_runtime_support_func_spec [("aa", 1), ("bb", 2)] [("art_x", 3)]
      "bb" (by decide) (by decide)).1 2 (by decide),
   (art_find_runtime_support_func_spec [("aa", 1), ("bb", 2)] [("art_x", 3)]
      "art_x" (by decide) (by decide)).2.1 (by decide) (by decide),
   (art_find_runtime_support_func_spec [("aa", 1), ("bb", 2)] [("art_x", 3)]
      "zz" (by decide) (by decide)).2.2 (by decide) (by decide)⟩

/-- Claim C9: throwing an arbitrary object installs, replacing any previous
pending value, a null-reference exception when the argument is null and the
argument object itself otherwise. -/
theorem art_throw_exception_from_code_spec (exception : Option RObject)
    (t : ThreadState) :
    (art_throw_exception_from_code exception t).pending =
      match exception with
      | none => some { klass := .mk0 "Ljava/lang/NullPointerException;",
                       message := some "throw with null exception" }
      | some e => some e := by
  cases exception <;> rfl

/-- Claim C10: decoding a JNI handle returns null, consulting the decoder
not at all, whenever an exception is pending, and decodes the handle exactly
when no exception is pending. -/
theorem art_decode_jobject_in_thread_spec (decode : Nat → Option RObject)
    (t : ThreadState) (obj : Nat) :
    (∀ e, t.pending = some e →
      art_decode_jobject_in_thread decode t obj = none)
    ∧ (t.pending = none →
      art_decode_jobject_in_thread decode t obj = decode obj) := by
  constructor
  · intro e he
    simp [art_decode_jobject_in_thread, he]
  · intro h
    simp [art_decode_jobject_in_thread, h]

/-- Witness for C10: both branches at concrete inputs. -/
theorem art_decode_jobject_in_thread_spec_witness :
    art_decode_jobject_in_thread
      (fun n => some { klass := .mk0 "A", message := some (toString n) })
      sampleThreadPending 7 = none
    ∧ art_decode_jobject_in_thread
      (fun n => some { klass := .mk0 "A", message := some (toString n) })
      sampleThread 7 = some { klass := .mk0 "A", message := some (toString 7) } :=
  ⟨(art_decode_jobject_in_thread_spec _ sampleThreadPending 7).1
      { klass := .mk0 "Ljava/lang/Error;" } rfl,
   (art_decode_jobject_in_thread_spec _ sampleThread 7).2 rfl⟩

end ArtRuntime
